import Mathlib

/-!
Shallow embedding of the python client in `src/src/py/stinger/stinger_net.py`
(the `StingerStream` batch builder, the `StingerDataArray` typed view and the
`StingerAlg` phase calls), together with theorems checking the repository's
specification against it.

Modelling conventions:
* a python value that is "int or str" is a `PyVal`;
* a `ctypes.c_char_p` cell is a `CStr`: `null` (the 0 pointer), `lit s`
  (a pointer to the python string `s`, as produced by `ctypes.c_char_p(s)`),
  or `addr i` (a pointer forged from a nonzero integer `i`);
* a `ctypes.c_int64` store wraps to the signed 64-bit range (`toI64`);
* a ctypes array of records is a `List` of records of length equal to the
  allocated capacity; fresh ctypes storage is zero-initialized;
* a python call that raises (`ctypes` `TypeError`, `ValueError` from
  `list.index`, `IndexError` from string indexing) returns `none`;
* return values of native `libstinger_net` calls are exogenous parameters
  (the transport status of `stream_send_batch`, the vertex count
  `stinger_alg_max_vertices`, the name resolution `stinger_mapping_lookup`).
-/

namespace StingerNet

/-- A python argument that may be an `int` or a `str`. -/
inductive PyVal
  | int : Int → PyVal
  | str : String → PyVal
deriving DecidableEq

/-- The contents of a `ctypes.c_char_p` field. -/
inductive CStr
  | null
  | lit : String → CStr
  | addr : Int → CStr
deriving DecidableEq

/-- `ctypes.c_char_p(v)` for a python value `v` (python 2 semantics: a string
shares its buffer pointer; an integer is reinterpreted as an address, 0 being
the null pointer). -/
def cCharP : PyVal → CStr
  | PyVal.str s => CStr.lit s
  | PyVal.int i => if i = 0 then CStr.null else CStr.addr i

/-- Signed 64-bit wraparound performed by storing into a `ctypes.c_int64`. -/
def toI64 (n : Int) : Int := (n + 2 ^ 63) % 2 ^ 64 - 2 ^ 63

/-- `ctypes.c_int64(v)`: converts an int, raises `TypeError` on a str. -/
def cInt64 : PyVal → Option Int
  | PyVal.int n => some (toI64 n)
  | PyVal.str _ => none

/-- The `StingerEdgeUpdate` ctypes structure (stinger_net.py lines 31-44). -/
structure EdgeUpdate where
  etype : Int := 0
  etype_str : CStr := CStr.null
  source : Int := 0
  source_str : CStr := CStr.null
  destination : Int := 0
  destination_str : CStr := CStr.null
  weight : Int := 0
  time : Int := 0
  result : Int := 0
  meta_index : Int := 0
deriving DecidableEq

/-- A zero-initialized `StingerEdgeUpdate` (fresh ctypes storage). -/
def zeroEdge : EdgeUpdate := {}

/-- The `StingerVertexUpdate` ctypes structure (stinger_net.py lines 47-57). -/
structure VertexUpdate where
  vertex : Int := 0
  vertex_str : CStr := CStr.null
  type : Int := 0
  type_str : CStr := CStr.null
  set_weight : Int := 0
  incr_weight : Int := 0
  meta_index : Int := 0
deriving DecidableEq

/-- A zero-initialized `StingerVertexUpdate`. -/
def zeroVertex : VertexUpdate := {}

/-- The mutable state of a `StingerStream` (stinger_net.py lines 115-145). -/
structure StreamState where
  sock_handle : Int
  insertions_size : Nat
  insertions : List EdgeUpdate
  insertions_refs : List (List EdgeUpdate)
  insertions_count : Nat
  deletions_size : Nat
  deletions : List EdgeUpdate
  deletions_refs : List (List EdgeUpdate)
  deletions_count : Nat
  vertex_updates_size : Nat
  vertex_updates : List VertexUpdate
  vertex_updates_refs : List (List VertexUpdate)
  vertex_updates_count : Nat
  only_strings : Bool
  undirected : Bool
deriving DecidableEq

/-- `StingerStream.__init__` (lines 119-145): `sock` is the exogenous result of
the native `stream_connect`. All three capacities start at 5000. Line 141
allocates the vertex-update buffer with `self.deletions_size`, which at this
point equals 5000 as well. -/
def initStream (sock : Int) (strings undirected : Bool) : StreamState :=
  { sock_handle := sock
    insertions_size := 5000
    insertions := List.replicate 5000 zeroEdge
    insertions_refs := []
    insertions_count := 0
    deletions_size := 5000
    deletions := List.replicate 5000 zeroEdge
    deletions_refs := []
    deletions_count := 0
    vertex_updates_size := 5000
    vertex_updates := List.replicate 5000 zeroVertex
    vertex_updates_refs := []
    vertex_updates_count := 0
    only_strings := strings
    undirected := undirected }

/-- The first `n` records of a destination buffer after
`ctypes.memmove(dst, src, sizeof(Record * n))`: the records of `src`, with
reads past the end of `src`'s allocation modelled as zeroed memory. -/
def copyInto (src : List α) (n : Nat) (z : α) : List α :=
  (src ++ List.replicate n z).take n

/-- The buffer produced by the doubling reallocation (e.g. lines 165-171): a
fresh zero-initialized buffer of `newSize` records whose first `newSize / 2`
records are memmoved from `src`. The sizes are powers of two times 5000, so
the source's `size / 2` (python 2 integer division) is exact. -/
def grow (src : List α) (newSize : Nat) (z : α) : List α :=
  copyInto src (newSize / 2) z ++ List.replicate (newSize - newSize / 2) z

/-- Lines 173-180 of `add_insert` (and 210-217 of `add_delete`): populate the
endpoint fields of the record at the append slot, whose prior contents are
`r0`. In string mode only the `_str` fields are assigned; in int mode the
`_str` fields are nulled and the int fields assigned (a `str` argument makes
`ctypes.c_int64` raise `TypeError`). -/
def buildEdgeEndpoints (onlyStrings : Bool) (r0 : EdgeUpdate) (vfrom vto : PyVal) :
    Option EdgeUpdate :=
  if onlyStrings then
    some { r0 with source_str := cCharP vfrom, destination_str := cCharP vto }
  else
    match cInt64 vfrom, cInt64 vto with
    | some a, some b =>
        some { r0 with source_str := CStr.null, destination_str := CStr.null,
                       source := a, destination := b }
    | _, _ => none

/-- Lines 182-185 (and 219-222): the edge-type branch assigns exactly one of
`etype_str` / `etype`, leaving the other as it was. -/
def setEdgeEtype (r : EdgeUpdate) (etype : PyVal) : EdgeUpdate :=
  match etype with
  | PyVal.str s => { r with etype_str := CStr.lit s }
  | PyVal.int n => { r with etype := toI64 n }

/-- `StingerStream.add_insert` (lines 147-190). -/
def add_insert (st : StreamState) (vfrom vto etype : PyVal) (weight ts : Int)
    (insert_strings : Option Bool) : Option StreamState :=
  -- line 163
  let st1 := { st with only_strings := insert_strings.getD st.only_strings }
  -- lines 165-171
  let st2 :=
    if st1.insertions_size ≤ st1.insertions_count then
      { st1 with
          insertions_size := 2 * st1.insertions_size
          insertions_refs := st1.insertions_refs ++ [st1.insertions]
          insertions := grow st1.insertions (2 * st1.insertions_size) zeroEdge }
    else st1
  -- lines 173-190
  (buildEdgeEndpoints st2.only_strings
      (st2.insertions.getD st2.insertions_count zeroEdge) vfrom vto).map fun r1 =>
    let r2 := setEdgeEtype r1 etype
    let r3 := { r2 with weight := toI64 weight, time := toI64 ts }
    { st2 with
        insertions := st2.insertions.set st2.insertions_count r3
        insertions_count := st2.insertions_count + 1 }

/-- `StingerStream.add_delete` (lines 192-224). -/
def add_delete (st : StreamState) (vfrom vto etype : PyVal) : Option StreamState :=
  -- lines 202-208
  let st2 :=
    if st.deletions_size ≤ st.deletions_count then
      { st with
          deletions_size := 2 * st.deletions_size
          deletions_refs := st.deletions_refs ++ [st.deletions]
          deletions := grow st.deletions (2 * st.deletions_size) zeroEdge }
    else st
  -- lines 210-224
  (buildEdgeEndpoints st2.only_strings
      (st2.deletions.getD st2.deletions_count zeroEdge) vfrom vto).map fun r1 =>
    let r2 := setEdgeEtype r1 etype
    { st2 with
        deletions := st2.deletions.set st2.deletions_count r2
        deletions_count := st2.deletions_count + 1 }

/-- Lines 246-250 of `add_vertex_update`: in string mode only `vertex_str` is
assigned; in int mode `vertex` is assigned and `vertex_str` nulled. -/
def buildVertexBase (onlyStrings : Bool) (r0 : VertexUpdate) (vtx : PyVal) :
    Option VertexUpdate :=
  if onlyStrings then
    some { r0 with vertex_str := cCharP vtx }
  else
    (cInt64 vtx).map fun v => { r0 with vertex := v, vertex_str := CStr.null }

/-- `StingerStream.add_vertex_update` (lines 226-260). Line 257 assigns the
`weight` parameter to the attribute `.weight` of the element proxy, but
`StingerVertexUpdate` declares no ctypes field named `weight` (its weight
field is `set_weight`): the assignment lands in the temporary proxy object's
python attribute dictionary and never reaches the backing storage, so the
stored record's `set_weight` is not modified by this call. -/
def add_vertex_update (st : StreamState) (vtx vtype : PyVal) (weight incr_weight : Int) :
    Option StreamState :=
  -- lines 238-244
  let st2 :=
    if st.vertex_updates_size ≤ st.vertex_updates_count then
      { st with
          vertex_updates_size := 2 * st.vertex_updates_size
          vertex_updates_refs := st.vertex_updates_refs ++ [st.vertex_updates]
          vertex_updates := grow st.vertex_updates (2 * st.vertex_updates_size) zeroVertex }
    else st
  -- lines 246-260
  (buildVertexBase st2.only_strings
      (st2.vertex_updates.getD st2.vertex_updates_count zeroVertex) vtx).map fun r1 =>
    let r2 :=
      match vtype with
      | PyVal.str s => { r1 with type_str := CStr.lit s }
      | PyVal.int n => { r1 with type := toI64 n }
    let r3 := { r2 with incr_weight := toI64 incr_weight }
    { st2 with
        vertex_updates := st2.vertex_updates.set st2.vertex_updates_count r3
        vertex_updates_count := st2.vertex_updates_count + 1 }

/-- The arguments the wrapper passes to the native `stream_send_batch`
(lines 268-273): the socket, the string-mode flag, the three buffers with
their logical counts, and the directedness flag. -/
structure WireRequest where
  sock : Int
  strings_flag : Bool
  insertions : List EdgeUpdate
  num_insertions : Nat
  deletions : List EdgeUpdate
  num_deletions : Nat
  vertex_updates : List VertexUpdate
  num_vertex_updates : Nat
  undirected : Bool
deriving DecidableEq

/-- The request content transmitted by `send_batch`: the first `count` records
of each buffer, plus the flags. -/
def sendRequest (st : StreamState) : WireRequest :=
  { sock := st.sock_handle
    strings_flag := st.only_strings
    insertions := st.insertions.take st.insertions_count
    num_insertions := st.insertions_count
    deletions := st.deletions.take st.deletions_count
    num_deletions := st.deletions_count
    vertex_updates := st.vertex_updates.take st.vertex_updates_count
    num_vertex_updates := st.vertex_updates_count
    undirected := st.undirected }

/-- `StingerStream.send_batch` (lines 262-279). The native call is handed
`sendRequest st` and returns `transportStatus` (an exogenous transport
outcome); the wrapper discards that value, unconditionally resets the three
counts and the three reference lists, and returns `None`. The buffers and
capacities are retained as they are. -/
def send_batch (st : StreamState) (transportStatus : Int) : StreamState :=
  { st with
      insertions_count := 0
      deletions_count := 0
      vertex_updates_count := 0
      insertions_refs := []
      deletions_refs := []
      vertex_updates_refs := [] }

/-- One python call on a `StingerStream`. -/
inductive StreamOp
  | insert (vfrom vto etype : PyVal) (weight ts : Int) (insert_strings : Option Bool)
  | delete (vfrom vto etype : PyVal)
  | vupdate (vtx vtype : PyVal) (weight incr : Int)
  | send (transportStatus : Int)
deriving DecidableEq

/-- Execute one call. -/
def stepOp (st : StreamState) : StreamOp → Option StreamState
  | StreamOp.insert a b e w t is => add_insert st a b e w t is
  | StreamOp.delete a b e => add_delete st a b e
  | StreamOp.vupdate v ty w i => add_vertex_update st v ty w i
  | StreamOp.send s => some (send_batch st s)

/-- Execute a sequence of calls; `none` as soon as one raises. -/
def runOps (st : StreamState) : List StreamOp → Option StreamState
  | [] => some st
  | op :: ops => (stepOp st op).bind fun st' => runOps st' ops

/-- The triple of logical counts of a stream state. -/
def countsOf (st : StreamState) : Nat × Nat × Nat :=
  (st.insertions_count, st.deletions_count, st.vertex_updates_count)

/-- The effect one call has on the count triple: each add bumps its own
count, `send` resets all three. -/
def countsStep (c : Nat × Nat × Nat) : StreamOp → Nat × Nat × Nat
  | StreamOp.insert _ _ _ _ _ _ => (c.1 + 1, c.2.1, c.2.2)
  | StreamOp.delete _ _ _ => (c.1, c.2.1 + 1, c.2.2)
  | StreamOp.vupdate _ _ _ _ => (c.1, c.2.1, c.2.2 + 1)
  | StreamOp.send _ => (0, 0, 0)

/-- The counts a call sequence should leave behind, starting from a fresh
stream: the number of adds of each kind since the last `send`. -/
def countsAfter (ops : List StreamOp) : Nat × Nat × Nat :=
  ops.foldl countsStep (0, 0, 0)

/-- Python `str.split()` with no argument: split on runs of whitespace,
discarding empty pieces. `acc` holds the current word reversed. -/
def splitWsGo : List Char → List Char → List String
  | [], acc => if acc.isEmpty then [] else [String.mk acc.reverse]
  | c :: cs, acc =>
    if c.isWhitespace then
      if acc.isEmpty then splitWsGo cs []
      else String.mk acc.reverse :: splitWsGo cs []
    else splitWsGo cs (c :: acc)

/-- `data_desc.split()` (line 367). -/
def pySplit (s : String) : List String := splitWsGo s.toList []

/-- Python `list.index(a)`: the index of the first occurrence, `ValueError`
(here `none`) when absent. -/
def pyIndex : List String → String → Option Nat
  | [], _ => none
  | x :: xs, a => if x = a then some 0 else (pyIndex xs a).map (· + 1)

/-- The byte width of a descriptor type tag, as in the list comprehension of
lines 382-385: `d`/`l` are 8 bytes, `f`/`i` are 4, anything else 1. -/
def tagWidth (c : Char) : Nat :=
  if c = 'd' ∨ c = 'l' then 8 else if c = 'f' ∨ c = 'i' then 4 else 1

/-- The element byte width the cast chain of lines 390-399 gives the view:
`d` → `c_double` (8), `f` → `c_float` (4), `l` → `c_int64` (8), `i` →
`c_int32` (4), anything else → `c_int8` (1). -/
def elemWidth (c : Char) : Nat :=
  if c = 'd' then 8 else if c = 'f' then 4 else if c = 'l' then 8
  else if c = 'i' then 4 else 1

/-- A constructed `StingerDataArray` view (stinger_net.py lines 350-399):
`data` is the byte address `data_ptr + offset * nv` the typed pointer is cast
from. -/
structure StingerDataArray where
  field_name : String
  data_type : Char
  nv : Nat
  data : Int
deriving DecidableEq

/-- `StingerDataArray.__init__` (lines 354-399). `nv` is the exogenous result
of the native `stinger_alg_max_vertices`. Line 373 (`list.index`) raises
before any offset arithmetic when the field name is absent; line 376 raises
when the tag token is too short. -/
def mkStingerDataArray (data_ptr : Int) (data_desc : String) (field_name : String)
    (nv : Nat) : Option StingerDataArray :=
  let toks := pySplit data_desc
  match pyIndex (toks.drop 1) field_name with
  | none => none
  | some field_index =>
    let tags := (toks.headD "").toList
    match tags.get? field_index with
    | none => none
    | some dt =>
      -- lines 380-386
      let offset := ((tags.take field_index).map tagWidth).sum
      -- line 388
      some { field_name := field_name, data_type := dt, nv := nv,
             data := data_ptr + (offset : Int) * (nv : Int) }

/-- Lines 410-411 and 425-426: an integer index is used as is, a string is
resolved through `Stinger.get_mapping` (native `stinger_mapping_lookup`,
exogenous here; negative when the name is unknown). -/
def resolveIndex (lookup : String → Int) : PyVal → Int
  | PyVal.int n => n
  | PyVal.str s => lookup s

/-- `StingerDataArray.__getitem__` (lines 401-412): `self.data[i] if i >= 0
else 0`. `mem` maps the byte address of an element to its value. -/
def StingerDataArray.getItem (v : StingerDataArray) (mem : Int → Int)
    (lookup : String → Int) (i : PyVal) : Int :=
  let j := resolveIndex lookup i
  if 0 ≤ j then mem (v.data + (elemWidth v.data_type : Int) * j) else 0

/-- `StingerDataArray.__setitem__` (lines 414-431): writes `self.data[i] = k`
and returns `k` when `i >= 0`, otherwise leaves memory alone and returns 0.
The result is (memory after the call, returned value). -/
def StingerDataArray.setItem (v : StingerDataArray) (mem : Int → Int)
    (lookup : String → Int) (i : PyVal) (k : Int) : (Int → Int) × Int :=
  let j := resolveIndex lookup i
  if 0 ≤ j then
    (fun a => if a = v.data + (elemWidth v.data_type : Int) * j then k else mem a, k)
  else (mem, 0)

/-- The phase an algorithm session is in. Modelled from the spec: the phase
protocol is enforced by the native `lib/stinger_net` library behind the
`stinger_alg_begin_init` / `..._end_init` / `..._begin_pre` / `..._end_pre` /
`..._begin_post` / `..._end_post` calls the python `StingerAlg` methods
(stinger_net.py lines 294-339) forward to; that library is part of this
repository but not among the staged sources, so its state machine is taken
from the spec's PhaseState section. -/
inductive PhaseState
  | Idle
  | InInit
  | InPre
  | InPost
deriving DecidableEq

/-- One phase call on a `StingerAlg`. -/
inductive PhaseOp
  | begin_init
  | end_init
  | begin_pre
  | end_pre
  | begin_post
  | end_post
deriving DecidableEq

/-- Modelled from the spec: the transition relation of the phase state
machine. A `begin_*` is granted only from `Idle`, an `end_*` only from the
matching open phase; every other call is a protocol violation and is
rejected (`none`). -/
def phase_step : PhaseState → PhaseOp → Option PhaseState
  | PhaseState.Idle, PhaseOp.begin_init => some PhaseState.InInit
  | PhaseState.InInit, PhaseOp.end_init => some PhaseState.Idle
  | PhaseState.Idle, PhaseOp.begin_pre => some PhaseState.InPre
  | PhaseState.InPre, PhaseOp.end_pre => some PhaseState.Idle
  | PhaseState.Idle, PhaseOp.begin_post => some PhaseState.InPost
  | PhaseState.InPost, PhaseOp.end_post => some PhaseState.Idle
  | _, _ => none

/-! ### Helper lemmas -/

theorem pyIndex_eq_none {xs : List String} {a : String} :
    pyIndex xs a = none ↔ a ∉ xs := by
  induction xs with
  | nil => simp [pyIndex]
  | cons x xs ih =>
    by_cases hx : x = a
    · subst hx
      simp [pyIndex]
    · simp [pyIndex, hx, Option.map_eq_none', ih, Ne.symm hx]

theorem pyIndex_lt {xs : List String} {a : String} {k : Nat}
    (h : pyIndex xs a = some k) : k < xs.length := by
  induction xs generalizing k with
  | nil => simp [pyIndex] at h
  | cons x xs ih =>
    by_cases hx : x = a
    · simp only [pyIndex, if_pos hx] at h
      injection h with h0
      simp only [List.length_cons]
      omega
    · simp only [pyIndex, if_neg hx, Option.map_eq_some'] at h
      obtain ⟨m, hm, rfl⟩ := h
      have := ih hm
      simp only [List.length_cons]
      omega

theorem getD_set_ne {l : List α} {i j : Nat} (h : i ≠ j) (a d : α) :
    (l.set i a).getD j d = l.getD j d := by
  simp [List.getD_eq_getD_get?, List.get?_eq_getElem?, List.getElem?_set_ne h]

theorem getD_append_left {l₁ l₂ : List α} {j : Nat} (h : j < l₁.length) (d : α) :
    (l₁ ++ l₂).getD j d = l₁.getD j d := by
  simp [List.getD_eq_getD_get?, List.get?_eq_getElem?, List.getElem?_append_left h]

/-! ### Claims about `StingerDataArray` -/

/-- Claim C3: for a well-formed descriptor (one token of type tags, then one
field-name token per tag) and a requested field occurring among the names at
index `k`, `StingerDataArray.__init__` succeeds and computes the view address
as `data_ptr + nv * Σ (byte width of the tags before index k)`, with widths
`d`,`l` ↦ 8, `f`,`i` ↦ 4, `b` ↦ 1, the view spanning `nv` elements of the
field's type tag. -/
theorem data_array_offset_law (data_ptr : Int) (nv : Nat) (data_desc tags fname : String)
    (names : List String) (k : Nat)
    (hsplit : pySplit data_desc = tags :: names)
    (hwf : names.length = tags.toList.length)
    (hidx : pyIndex names fname = some k) :
    ∃ v, mkStingerDataArray data_ptr data_desc fname nv = some v ∧
      v.data = data_ptr + (nv : Int) * (((tags.toList.take k).map tagWidth).sum : Int) ∧
      tags.toList.get? k = some v.data_type ∧
      v.nv = nv ∧ v.field_name = fname := by
  have hk : k < tags.toList.length := hwf ▸ pyIndex_lt hidx
  have hget : tags.toList.get? k = some (tags.toList.get ⟨k, hk⟩) :=
    List.get?_eq_get hk
  refine ⟨{ field_name := fname, data_type := tags.toList.get ⟨k, hk⟩, nv := nv,
            data := data_ptr +
              ((((tags.toList.take k).map tagWidth).sum : Nat) : Int) * (nv : Int) },
         ?_, ?_, ?_, rfl, rfl⟩
  · simp only [mkStingerDataArray, hsplit, List.drop_succ_cons, List.drop_zero, hidx,
      List.headD_cons, hget]
  · push_cast
    ring
  · simp [hget]

/-- Witness for C3: descriptor `"dfi x y z"` with `nv = 7`; field `y` sits at
byte offset `8 * 7` and field `z` at `(8 + 4) * 7`, as the claim requires. -/
theorem data_array_offset_law_witness :
    (∃ v, mkStingerDataArray 1000 "dfi x y z" "y" 7 = some v ∧ v.data = 1000 + 8 * 7) ∧
    (∃ v, mkStingerDataArray 1000 "dfi x y z" "z" 7 = some v ∧ v.data = 1000 + (8 + 4) * 7) := by
  constructor
  · obtain ⟨v, hv, hd, -, -, -⟩ :=
      data_array_offset_law 1000 7 "dfi x y z" "dfi" "y" ["x", "y", "z"] 1
        (by decide) (by decide) (by decide)
    exact ⟨v, hv, by rw [hd]; decide⟩
  · obtain ⟨v, hv, hd, -, -, -⟩ :=
      data_array_offset_law 1000 7 "dfi x y z" "dfi" "z" ["x", "y", "z"] 2
        (by decide) (by decide) (by decide)
    exact ⟨v, hv, by rw [hd]; decide⟩

/-- Claim C7: when the requested field name does not occur among the
descriptor's field-name tokens, `StingerDataArray.__init__` fails (the
`list.index` call of line 373 raises `ValueError`) before any offset
arithmetic on the blob pointer is attempted. -/
theorem missing_field_rejected (data_ptr : Int) (nv : Nat) (data_desc fname : String)
    (habsent : fname ∉ (pySplit data_desc).drop 1) :
    mkStingerDataArray data_ptr data_desc fname nv = none := by
  simp only [mkStingerDataArray, pyIndex_eq_none.mpr habsent]

/-- Witness for C7: no field `missing` in descriptor `"d score"`. -/
theorem missing_field_rejected_witness :
    mkStingerDataArray 0 "d score" "missing" 10 = none :=
  missing_field_rejected 0 10 "d score" "missing" (by decide)

/-- Claim C4: `get(i)` with a negative integer, or with a string name whose
resolution yields a negative id, returns 0; `set(i, v)` under the same
condition leaves memory unmodified and returns 0; with a non-negative
integer id or a resolvable name both access element `i` of the field's
view. -/
theorem degenerate_access_policy (v : StingerDataArray) (mem : Int → Int)
    (lookup : String → Int) (n : Int) (s : String) (k : Int) :
    (n < 0 →
      v.getItem mem lookup (PyVal.int n) = 0 ∧
      v.setItem mem lookup (PyVal.int n) k = (mem, 0)) ∧
    (lookup s < 0 →
      v.getItem mem lookup (PyVal.str s) = 0 ∧
      v.setItem mem lookup (PyVal.str s) k = (mem, 0)) ∧
    (0 ≤ n →
      v.getItem mem lookup (PyVal.int n) =
        mem (v.data + (elemWidth v.data_type : Int) * n) ∧
      v.setItem mem lookup (PyVal.int n) k =
        (fun a => if a = v.data + (elemWidth v.data_type : Int) * n then k else mem a, k)) ∧
    (0 ≤ lookup s →
      v.getItem mem lookup (PyVal.str s) =
        mem (v.data + (elemWidth v.data_type : Int) * lookup s) ∧
      v.setItem mem lookup (PyVal.str s) k =
        (fun a => if a = v.data + (elemWidth v.data_type : Int) * lookup s then k
         else mem a, k)) := by
  refine ⟨fun hn => ?_, fun hs => ?_, fun hn => ?_, fun hs => ?_⟩ <;>
    simp_all [StingerDataArray.getItem, StingerDataArray.setItem, resolveIndex,
      not_le.mpr, le_of_lt]

/-- Witness for C4: a concrete view over `"d score"` with an unresolvable
name and a negative index on one side, and a genuine access on the other. -/
theorem degenerate_access_policy_witness :
    ((-3 : Int) < 0 ∧
      { field_name := "score", data_type := 'd', nv := 10, data := 64 :
          StingerDataArray }.getItem (fun _ => 7) (fun _ => -1) (PyVal.int (-3)) = 0) ∧
    ((fun (_ : String) => (-1 : Int)) "ghost" < 0 ∧
      { field_name := "score", data_type := 'd', nv := 10, data := 64 :
          StingerDataArray }.setItem (fun _ => 7) (fun _ => -1) (PyVal.str "ghost") 5 =
        ((fun _ => 7), 0)) ∧
    ((0 : Int) ≤ 2 ∧
      { field_name := "score", data_type := 'd', nv := 10, data := 64 :
          StingerDataArray }.getItem (fun _ => 7) (fun _ => -1) (PyVal.int 2) = 7) := by
  refine ⟨⟨by decide, ?_⟩, ⟨by decide, ?_⟩, ⟨by decide, ?_⟩⟩
  · exact ((degenerate_access_policy _ (fun _ => 7) (fun _ => -1) (-3) "ghost" 5).1
      (by decide)).1
  · exact ((degenerate_access_policy _ (fun _ => 7) (fun _ => -1) (-3) "ghost" 5).2.1
      (by decide)).2
  · have := ((degenerate_access_policy
      { field_name := "score", data_type := 'd', nv := 10, data := 64 : StingerDataArray }
      (fun _ => 7) (fun _ => -1) 2 "ghost" 5).2.2.1 (by decide)).1
    simpa using this

/-- Claim C10: `get(i)` and `set(i, v)` perform the element access for every
index at or beyond `nv`: the degenerate-input guard checks only `i >= 0`,
never `i < nv`. -/
theorem no_upper_bound_check (v : StingerDataArray) (mem : Int → Int)
    (lookup : String → Int) (n k : Int) (hn : (v.nv : Int) ≤ n) :
    v.getItem mem lookup (PyVal.int n) =
      mem (v.data + (elemWidth v.data_type : Int) * n) ∧
    (v.setItem mem lookup (PyVal.int n) k).1
        (v.data + (elemWidth v.data_type : Int) * n) = k ∧
    (v.setItem mem lookup (PyVal.int n) k).2 = k := by
  have h0 : (0 : Int) ≤ n := le_trans (Int.natCast_nonneg v.nv) hn
  simp [StingerDataArray.getItem, StingerDataArray.setItem, resolveIndex, h0]

/-- Witness for C10: index 50 on a 10-vertex view is read and written
without diversion. -/
theorem no_upper_bound_check_witness :
    ((10 : Int) ≤ 50) ∧
    ({ field_name := "score", data_type := 'd', nv := 10, data := 64 :
        StingerDataArray }.getItem (fun _ => 7) (fun _ => -1) (PyVal.int 50) = 7) := by
  refine ⟨by decide, ?_⟩
  have := (no_upper_bound_check
    { field_name := "score", data_type := 'd', nv := 10, data := 64 : StingerDataArray }
    (fun _ => 7) (fun _ => -1) 50 3 (by decide)).1
  simpa using this

/-! ### Claim about the phase protocol -/

/-- Claim C6: the phase protocol (modelled from the spec, see `phase_step`)
rejects `end_pre` without an unmatched `begin_pre`, rejects `begin_post`
while `begin_pre` is open, and in general accepts an `end_*` only in the
matching open phase and a `begin_*` only when no phase is open; nesting is
never silently tolerated. -/
theorem phase_protocol_rejects_mismatch (s : PhaseState) (op : PhaseOp) :
    (phase_step PhaseState.Idle PhaseOp.end_pre = none) ∧
    (phase_step PhaseState.InPre PhaseOp.begin_post = none) ∧
    ((phase_step s PhaseOp.end_pre).isSome → s = PhaseState.InPre) ∧
    ((phase_step s PhaseOp.end_init).isSome → s = PhaseState.InInit) ∧
    ((phase_step s PhaseOp.end_post).isSome → s = PhaseState.InPost) ∧
    (s ≠ PhaseState.Idle →
      phase_step s PhaseOp.begin_init = none ∧
      phase_step s PhaseOp.begin_pre = none ∧
      phase_step s PhaseOp.begin_post = none) := by
  cases s <;> cases op <;> simp [phase_step]

/-! ### Claims about the `StingerStream` batch -/

theorem add_insert_counts {st st' : StreamState} {a b e : PyVal} {w t : Int}
    {is : Option Bool} (h : add_insert st a b e w t is = some st') :
    st'.insertions_count = st.insertions_count + 1 ∧
    st'.deletions_count = st.deletions_count ∧
    st'.vertex_updates_count = st.vertex_updates_count := by
  simp only [add_insert, Option.map_eq_some'] at h
  obtain ⟨r1, -, h2⟩ := h
  subst h2
  split <;> simp

theorem add_delete_counts {st st' : StreamState} {a b e : PyVal}
    (h : add_delete st a b e = some st') :
    st'.insertions_count = st.insertions_count ∧
    st'.deletions_count = st.deletions_count + 1 ∧
    st'.vertex_updates_count = st.vertex_updates_count := by
  simp only [add_delete, Option.map_eq_some'] at h
  obtain ⟨r1, -, h2⟩ := h
  subst h2
  split <;> simp

theorem add_vertex_update_counts {st st' : StreamState} {v ty : PyVal} {w i : Int}
    (h : add_vertex_update st v ty w i = some st') :
    st'.insertions_count = st.insertions_count ∧
    st'.deletions_count = st.deletions_count ∧
    st'.vertex_updates_count = st.vertex_updates_count + 1 := by
  simp only [add_vertex_update, Option.map_eq_some'] at h
  obtain ⟨r1, -, h2⟩ := h
  subst h2
  split <;> simp

theorem stepOp_counts {st st' : StreamState} {op : StreamOp}
    (h : stepOp st op = some st') : countsOf st' = countsStep (countsOf st) op := by
  cases op with
  | insert a b e w t is =>
    obtain ⟨h1, h2, h3⟩ := add_insert_counts h
    simp [countsOf, countsStep, h1, h2, h3]
  | delete a b e =>
    obtain ⟨h1, h2, h3⟩ := add_delete_counts h
    simp [countsOf, countsStep, h1, h2, h3]
  | vupdate v ty w i =>
    obtain ⟨h1, h2, h3⟩ := add_vertex_update_counts (w := w) h
    simp [countsOf, countsStep, h1, h2, h3]
  | send s =>
    simp only [stepOp, Option.some_inj] at h
    subst h
    simp [countsOf, countsStep, send_batch]

theorem runOps_counts (ops : List StreamOp) :
    ∀ st st', runOps st ops = some st' →
      countsOf st' = ops.foldl countsStep (countsOf st) := by
  induction ops with
  | nil =>
    intro st st' h
    simp only [runOps, Option.some_inj] at h
    subst h
    simp
  | cons op ops ih =>
    intro st st' h
    simp only [runOps, Option.bind_eq_some] at h
    obtain ⟨st1, h1, h2⟩ := h
    rw [List.foldl_cons, ← stepOp_counts h1]
    exact ih st1 st' h2

/-- Claim C1: for every call sequence on one `StingerStream`, each of the
three logical counts equals the number of corresponding add calls since
construction or the last `send_batch` (an op list may contain any number of
`send`s: `countsAfter` resets all three to zero at each one, so the state
right after a `send_batch`, and the tracking across further add calls and
send cycles on the reused batch, are both covered). -/
theorem batch_counts_track_calls (sock : Int) (strings undirected : Bool)
    (ops : List StreamOp) (st' : StreamState)
    (h : runOps (initStream sock strings undirected) ops = some st') :
    countsOf st' = countsAfter ops := by
  have h2 := runOps_counts ops _ _ h
  rw [h2]
  rfl

/-- The op list exercising C1's witness: two adds, a send, then two more
adds on the reused batch. -/
def c1ops : List StreamOp :=
  [StreamOp.insert (PyVal.str "A") (PyVal.str "B") (PyVal.int 0) 1 0 none,
   StreamOp.delete (PyVal.str "B") (PyVal.str "C") (PyVal.int 0),
   StreamOp.send 0,
   StreamOp.vupdate (PyVal.str "A") (PyVal.int 1) 2 3,
   StreamOp.insert (PyVal.str "C") (PyVal.str "A") (PyVal.int 0) 1 0 none]

/-- Witness for C1: after insert, delete, send, vertex-update, insert the
counts are (1, 0, 1), and they match `countsAfter`. -/
theorem batch_counts_track_calls_witness :
    (runOps (initStream 0 true false) c1ops).map countsOf = some (1, 0, 1) := by
  cases h : runOps (initStream 0 true false) c1ops with
  | none => exact absurd h (by decide)
  | some st =>
    rw [Option.map_some']
    exact congrArg some (batch_counts_track_calls 0 true false c1ops st h)

theorem grow_getD {α : Type} {buf : List α} {sz j : Nat} (hlen : buf.length = sz)
    (hj : j < sz) (z d : α) :
    (grow buf (2 * sz) z).getD j d = buf.getD j d := by
  unfold grow copyInto
  have h2 : 2 * sz / 2 = sz := by omega
  rw [h2, List.take_left' hlen]
  exact getD_append_left (hlen.symm ▸ hj) d

/-- Claim C2: appending a record to any of the three sequences when its
logical count has reached the capacity (the buffer holding exactly
`capacity` records) doubles the capacity, preserves every previously added
record unchanged field-for-field (record `j` after the reallocation equals
record `j` before it, for every `j` below the old count), and retains a
reference to the old storage in the corresponding `_refs` list. -/
theorem growth_preserves_records (st : StreamState) (a b e v ty : PyVal)
    (w t iw : Int) (is : Option Bool) (st₁ st₂ st₃ : StreamState) :
    (st.insertions.length = st.insertions_size →
     st.insertions_count = st.insertions_size →
     add_insert st a b e w t is = some st₁ →
     st₁.insertions_size = 2 * st.insertions_size ∧
     (∀ j, j < st.insertions_count →
        st₁.insertions.getD j zeroEdge = st.insertions.getD j zeroEdge) ∧
     st.insertions ∈ st₁.insertions_refs) ∧
    (st.deletions.length = st.deletions_size →
     st.deletions_count = st.deletions_size →
     add_delete st a b e = some st₂ →
     st₂.deletions_size = 2 * st.deletions_size ∧
     (∀ j, j < st.deletions_count →
        st₂.deletions.getD j zeroEdge = st.deletions.getD j zeroEdge) ∧
     st.deletions ∈ st₂.deletions_refs) ∧
    (st.vertex_updates.length = st.vertex_updates_size →
     st.vertex_updates_count = st.vertex_updates_size →
     add_vertex_update st v ty w iw = some st₃ →
     st₃.vertex_updates_size = 2 * st.vertex_updates_size ∧
     (∀ j, j < st.vertex_updates_count →
        st₃.vertex_updates.getD j zeroVertex = st.vertex_updates.getD j zeroVertex) ∧
     st.vertex_updates ∈ st₃.vertex_updates_refs) := by
  refine ⟨fun hlen hcnt h => ?_, fun hlen hcnt h => ?_, fun hlen hcnt h => ?_⟩
  · simp only [add_insert, Option.map_eq_some'] at h
    have hc : ({ st with only_strings := is.getD st.only_strings } :
        StreamState).insertions_size ≤
        ({ st with only_strings := is.getD st.only_strings } :
        StreamState).insertions_count := le_of_eq hcnt.symm
    rw [if_pos hc] at h
    obtain ⟨r1, -, h2⟩ := h
    subst h2
    refine ⟨rfl, fun j hj => ?_, by simp⟩
    have hne : ({ st with only_strings := is.getD st.only_strings } :
        StreamState).insertions_count ≠ j := by
      simp only []
      omega
    simp only [getD_set_ne hne]
    exact grow_getD hlen (hcnt ▸ hj) zeroEdge zeroEdge
  · simp only [add_delete, Option.map_eq_some'] at h
    rw [if_pos (le_of_eq hcnt.symm)] at h
    obtain ⟨r1, -, h2⟩ := h
    subst h2
    refine ⟨rfl, fun j hj => ?_, by simp⟩
    have hne : st.deletions_count ≠ j := by omega
    simp only [getD_set_ne hne]
    exact grow_getD hlen (hcnt ▸ hj) zeroEdge zeroEdge
  · simp only [add_vertex_update, Option.map_eq_some'] at h
    rw [if_pos (le_of_eq hcnt.symm)] at h
    obtain ⟨r1, -, h2⟩ := h
    subst h2
    refine ⟨rfl, fun j hj => ?_, by simp⟩
    have hne : st.vertex_updates_count ≠ j := by omega
    simp only [getD_set_ne hne]
    exact grow_getD hlen (hcnt ▸ hj) zeroVertex zeroVertex

/-- A nonzero edge record used by witnesses. -/
def e0 : EdgeUpdate :=
  { zeroEdge with source_str := CStr.lit "A", destination_str := CStr.lit "B", weight := 1 }

/-- A nonzero vertex record used by witnesses. -/
def v0 : VertexUpdate :=
  { zeroVertex with vertex_str := CStr.lit "A", incr_weight := 2 }

/-- A stream whose three buffers (capacity 1) are all full, holding `e0`,
`e0` and `v0`. -/
def tinyFull : StreamState :=
  { sock_handle := 0
    insertions_size := 1
    insertions := [e0]
    insertions_refs := []
    insertions_count := 1
    deletions_size := 1
    deletions := [e0]
    deletions_refs := []
    deletions_count := 1
    vertex_updates_size := 1
    vertex_updates := [v0]
    vertex_updates_refs := []
    vertex_updates_count := 1
    only_strings := true
    undirected := false }

/-- Witness for C2: appending to each full sequence of `tinyFull` doubles
its capacity, keeps the old record 0 intact, and retains the old buffer. -/
theorem growth_preserves_records_witness :
    (∃ s, add_insert tinyFull (PyVal.str "C") (PyVal.str "D") (PyVal.int 0) 0 0 none =
        some s ∧ s.insertions_size = 2 ∧ s.insertions.getD 0 zeroEdge = e0 ∧
        tinyFull.insertions ∈ s.insertions_refs) ∧
    (∃ s, add_delete tinyFull (PyVal.str "C") (PyVal.str "D") (PyVal.int 0) = some s ∧
        s.deletions_size = 2 ∧ s.deletions.getD 0 zeroEdge = e0 ∧
        tinyFull.deletions ∈ s.deletions_refs) ∧
    (∃ s, add_vertex_update tinyFull (PyVal.str "C") (PyVal.int 0) 0 0 = some s ∧
        s.vertex_updates_size = 2 ∧ s.vertex_updates.getD 0 zeroVertex = v0 ∧
        tinyFull.vertex_updates ∈ s.vertex_updates_refs) := by
  refine ⟨?_, ?_, ?_⟩
  · cases h : add_insert tinyFull (PyVal.str "C") (PyVal.str "D") (PyVal.int 0) 0 0 none with
    | none => exact absurd h (by decide)
    | some s =>
      obtain ⟨h1, h2, h3⟩ :=
        (growth_preserves_records tinyFull (PyVal.str "C") (PyVal.str "D") (PyVal.int 0)
          (PyVal.str "C") (PyVal.int 0) 0 0 0 none s s s).1 (by decide) (by decide) h
      exact ⟨s, rfl, h1.trans (by decide), (h2 0 (by decide)).trans (by decide), h3⟩
  · cases h : add_delete tinyFull (PyVal.str "C") (PyVal.str "D") (PyVal.int 0) with
    | none => exact absurd h (by decide)
    | some s =>
      obtain ⟨h1, h2, h3⟩ :=
        (growth_preserves_records tinyFull (PyVal.str "C") (PyVal.str "D") (PyVal.int 0)
          (PyVal.str "C") (PyVal.int 0) 0 0 0 none s s s).2.1 (by decide) (by decide) h
      exact ⟨s, rfl, h1.trans (by decide), (h2 0 (by decide)).trans (by decide), h3⟩
  · cases h : add_vertex_update tinyFull (PyVal.str "C") (PyVal.int 0) 0 0 with
    | none => exact absurd h (by decide)
    | some s =>
      obtain ⟨h1, h2, h3⟩ :=
        (growth_preserves_records tinyFull (PyVal.str "C") (PyVal.str "D") (PyVal.int 0)
          (PyVal.str "C") (PyVal.int 0) 0 0 0 none s s s).2.2 (by decide) (by decide) h
      exact ⟨s, rfl, h1.trans (by decide), (h2 0 (by decide)).trans (by decide), h3⟩

theorem getD_set_self {α : Type} {l : List α} {i : Nat} (h : i < l.length) (a d : α) :
    (l.set i a).getD i d = a := by
  simp [List.getD_eq_getD_get?, List.get?_eq_getElem?, List.getElem?_set_self h]

/-- Claim C9: `add_insert` with a non-`None` `insert_strings` overwrites the
batch's `only_strings` flag with it, and with `None` leaves it unchanged;
the flag persists across `add_delete` and `add_vertex_update` (which never
write it), governs how those calls interpret endpoint arguments (string mode
stores `c_char_p` pointers, int mode stores `c_int64` ids and nulls the
string fields), and is the string-mode flag handed to the native call by the
next `send_batch`. -/
theorem only_strings_mode_persistence (st : StreamState) (a b e v ty : PyVal)
    (w t iw : Int) (bflag : Bool) (n m : Int) (st₁ st₂ st₃ st₄ : StreamState) :
    (add_insert st a b e w t (some bflag) = some st₁ → st₁.only_strings = bflag) ∧
    (add_insert st a b e w t none = some st₂ → st₂.only_strings = st.only_strings) ∧
    (add_delete st a b e = some st₃ → st₃.only_strings = st.only_strings) ∧
    (add_vertex_update st v ty w iw = some st₄ → st₄.only_strings = st.only_strings) ∧
    ((sendRequest st).strings_flag = st.only_strings) ∧
    (st.only_strings = true →
     st.deletions_count < st.deletions_size →
     st.deletions_count < st.deletions.length →
     add_delete st a b e = some st₃ →
     (st₃.deletions.getD st.deletions_count zeroEdge).source_str = cCharP a ∧
     (st₃.deletions.getD st.deletions_count zeroEdge).destination_str = cCharP b) ∧
    (st.only_strings = false →
     st.deletions_count < st.deletions_size →
     st.deletions_count < st.deletions.length →
     a = PyVal.int n → b = PyVal.int m →
     add_delete st a b e = some st₃ →
     (st₃.deletions.getD st.deletions_count zeroEdge).source = toI64 n ∧
     (st₃.deletions.getD st.deletions_count zeroEdge).source_str = CStr.null ∧
     (st₃.deletions.getD st.deletions_count zeroEdge).destination = toI64 m ∧
     (st₃.deletions.getD st.deletions_count zeroEdge).destination_str = CStr.null) ∧
    (st.only_strings = true →
     st.vertex_updates_count < st.vertex_updates_size →
     st.vertex_updates_count < st.vertex_updates.length →
     add_vertex_update st v ty w iw = some st₄ →
     (st₄.vertex_updates.getD st.vertex_updates_count zeroVertex).vertex_str = cCharP v) := by
  refine ⟨fun h => ?_, fun h => ?_, fun h => ?_, fun h => ?_, rfl,
    fun hmode hsz hlen h => ?_, fun hmode hsz hlen ha hb h => ?_,
    fun hmode hsz hlen h => ?_⟩
  · simp only [add_insert, Option.map_eq_some'] at h
    obtain ⟨r1, -, h2⟩ := h
    subst h2
    split <;> simp
  · simp only [add_insert, Option.map_eq_some'] at h
    obtain ⟨r1, -, h2⟩ := h
    subst h2
    split <;> simp
  · simp only [add_delete, Option.map_eq_some'] at h
    obtain ⟨r1, -, h2⟩ := h
    subst h2
    split <;> simp
  · simp only [add_vertex_update, Option.map_eq_some'] at h
    obtain ⟨r1, -, h2⟩ := h
    subst h2
    split <;> simp
  · simp only [add_delete, if_neg (not_le.mpr hsz), Option.map_eq_some'] at h
    obtain ⟨r1, hr1, h2⟩ := h
    rw [buildEdgeEndpoints, if_pos hmode, Option.some_inj] at hr1
    subst h2
    simp only [getD_set_self hlen]
    cases e <;> simp [setEdgeEtype, ← hr1]
  · subst ha
    subst hb
    simp only [add_delete, if_neg (not_le.mpr hsz), Option.map_eq_some'] at h
    obtain ⟨r1, hr1, h2⟩ := h
    rw [buildEdgeEndpoints, if_neg (by simp [hmode])] at hr1
    simp only [cInt64, Option.some_inj] at hr1
    subst h2
    simp only [getD_set_self hlen]
    cases e <;> simp [setEdgeEtype, ← hr1]
  · simp only [add_vertex_update, if_neg (not_le.mpr hsz), Option.map_eq_some'] at h
    obtain ⟨r1, hr1, h2⟩ := h
    rw [buildVertexBase, if_pos hmode, Option.some_inj] at hr1
    subst h2
    simp only [getD_set_self hlen]
    cases ty <;> simp [← hr1]

/-- Witness for C9: on a stream constructed in int mode, one `add_insert`
with `insert_strings=True` flips the flag to string mode. -/
theorem only_strings_mode_persistence_witness :
    (add_insert (initStream 0 false false) (PyVal.str "x") (PyVal.str "y") (PyVal.int 0)
      0 0 (some true)).map StreamState.only_strings = some true := by
  cases h : add_insert (initStream 0 false false) (PyVal.str "x") (PyVal.str "y")
      (PyVal.int 0) 0 0 (some true) with
  | none => exact absurd h (by decide)
  | some s =>
    rw [Option.map_some']
    exact congrArg some
      ((only_strings_mode_persistence (initStream 0 false false) (PyVal.str "x")
        (PyVal.str "y") (PyVal.int 0) (PyVal.str "x") (PyVal.int 0) 0 0 0 true 0 0
        s s s s).1 h)

/-- The call sequence refuting C5 as stated: an int-mode insert, a send, then
a string-mode insert into the reused slot 0. -/
def c5ops : List StreamOp :=
  [StreamOp.insert (PyVal.int 5) (PyVal.int 6) (PyVal.int 0) 0 0 none,
   StreamOp.send 0,
   StreamOp.insert (PyVal.str "a") (PyVal.str "b") (PyVal.int 0) 0 0 (some true)]

/-- Counterexample to claim C5 as stated: `send_batch` resets the counts but
not the buffer contents, and a string-mode `add_insert` does not clear the
integer endpoint fields, so the record appended by the string-mode insert of
`c5ops` — read back before transmission — reports `source_str = "a"` together
with the stale integer field `source = 5` from the previous cycle, not the
cleared value 0 the claim requires. -/
theorem record_sentinel_counterexample :
    (runOps (initStream 0 false false) c5ops).map
        (fun st => ((st.insertions.getD 0 zeroEdge).source_str,
                    (st.insertions.getD 0 zeroEdge).source)) =
      some (CStr.lit "a", 5) ∧ (5 : Int) ≠ 0 := by
  exact ⟨by decide, by decide⟩

/-- Claim C5 (amended): the sentinel round-trip law holds for a record
appended into a slot still holding its zero-initialized state, and partially
without that proviso: integer-mode adds explicitly null the string endpoint
fields on any slot, while string-mode adds leave the integer endpoint fields
— and both modes leave the unused type-field representation — at whatever
the slot previously held (zero only on fresh storage). -/
theorem record_sentinel_fresh_slot (st : StreamState) (a b tys vs : String)
    (x y en ti : Int) (w t iw : Int) (st₁ st₂ st₃ st₄ st₅ : StreamState) :
    (st.only_strings = true →
     st.insertions_count < st.insertions_size →
     st.insertions_count < st.insertions.length →
     st.insertions.getD st.insertions_count zeroEdge = zeroEdge →
     add_insert st (PyVal.str a) (PyVal.str b) (PyVal.int en) w t none = some st₁ →
     (st₁.insertions.getD st.insertions_count zeroEdge).source_str = CStr.lit a ∧
     (st₁.insertions.getD st.insertions_count zeroEdge).source = 0 ∧
     (st₁.insertions.getD st.insertions_count zeroEdge).destination_str = CStr.lit b ∧
     (st₁.insertions.getD st.insertions_count zeroEdge).destination = 0 ∧
     (st₁.insertions.getD st.insertions_count zeroEdge).etype = toI64 en ∧
     (st₁.insertions.getD st.insertions_count zeroEdge).etype_str = CStr.null) ∧
    (st.only_strings = false →
     st.insertions_count < st.insertions_size →
     st.insertions_count < st.insertions.length →
     st.insertions.getD st.insertions_count zeroEdge = zeroEdge →
     add_insert st (PyVal.int x) (PyVal.int y) (PyVal.str tys) w t none = some st₂ →
     (st₂.insertions.getD st.insertions_count zeroEdge).source = toI64 x ∧
     (st₂.insertions.getD st.insertions_count zeroEdge).source_str = CStr.null ∧
     (st₂.insertions.getD st.insertions_count zeroEdge).destination = toI64 y ∧
     (st₂.insertions.getD st.insertions_count zeroEdge).destination_str = CStr.null ∧
     (st₂.insertions.getD st.insertions_count zeroEdge).etype_str = CStr.lit tys ∧
     (st₂.insertions.getD st.insertions_count zeroEdge).etype = 0) ∧
    (st.only_strings = false →
     st.insertions_count < st.insertions_size →
     st.insertions_count < st.insertions.length →
     add_insert st (PyVal.int x) (PyVal.int y) (PyVal.int en) w t none = some st₃ →
     (st₃.insertions.getD st.insertions_count zeroEdge).source_str = CStr.null ∧
     (st₃.insertions.getD st.insertions_count zeroEdge).destination_str = CStr.null ∧
     (st₃.insertions.getD st.insertions_count zeroEdge).source = toI64 x ∧
     (st₃.insertions.getD st.insertions_count zeroEdge).destination = toI64 y) ∧
    (st.only_strings = true →
     st.vertex_updates_count < st.vertex_updates_size →
     st.vertex_updates_count < st.vertex_updates.length →
     st.vertex_updates.getD st.vertex_updates_count zeroVertex = zeroVertex →
     add_vertex_update st (PyVal.str vs) (PyVal.int ti) w iw = some st₄ →
     (st₄.vertex_updates.getD st.vertex_updates_count zeroVertex).vertex_str = CStr.lit vs ∧
     (st₄.vertex_updates.getD st.vertex_updates_count zeroVertex).vertex = 0 ∧
     (st₄.vertex_updates.getD st.vertex_updates_count zeroVertex).type = toI64 ti ∧
     (st₄.vertex_updates.getD st.vertex_updates_count zeroVertex).type_str = CStr.null) ∧
    (st.only_strings = false →
     st.vertex_updates_count < st.vertex_updates_size →
     st.vertex_updates_count < st.vertex_updates.length →
     st.vertex_updates.getD st.vertex_updates_count zeroVertex = zeroVertex →
     add_vertex_update st (PyVal.int x) (PyVal.str tys) w iw = some st₅ →
     (st₅.vertex_updates.getD st.vertex_updates_count zeroVertex).vertex = toI64 x ∧
     (st₅.vertex_updates.getD st.vertex_updates_count zeroVertex).vertex_str = CStr.null ∧
     (st₅.vertex_updates.getD st.vertex_updates_count zeroVertex).type_str = CStr.lit tys ∧
     (st₅.vertex_updates.getD st.vertex_updates_count zeroVertex).type = 0) := by
  refine ⟨fun hmode hsz hlen hfresh h => ?_, fun hmode hsz hlen hfresh h => ?_,
    fun hmode hsz hlen h => ?_, fun hmode hsz hlen hfresh h => ?_,
    fun hmode hsz hlen hfresh h => ?_⟩
  · simp only [add_insert, Option.getD_none, if_neg (not_le.mpr hsz),
      Option.map_eq_some'] at h
    obtain ⟨r1, hr1, h2⟩ := h
    simp only [buildEdgeEndpoints, hmode, if_true, hfresh, Option.some_inj] at hr1
    subst hr1
    subst h2
    simp [hlen, getD_set_self hlen, setEdgeEtype, cCharP, zeroEdge]
  · simp only [add_insert, Option.getD_none, if_neg (not_le.mpr hsz),
      Option.map_eq_some'] at h
    obtain ⟨r1, hr1, h2⟩ := h
    simp only [buildEdgeEndpoints, hmode, Bool.false_eq_true, if_false, cInt64,
      hfresh, Option.some_inj] at hr1
    subst hr1
    subst h2
    simp [hlen, getD_set_self hlen, setEdgeEtype, zeroEdge]
  · simp only [add_insert, Option.getD_none, if_neg (not_le.mpr hsz),
      Option.map_eq_some'] at h
    obtain ⟨r1, hr1, h2⟩ := h
    simp only [buildEdgeEndpoints, hmode, Bool.false_eq_true, if_false, cInt64,
      Option.some_inj] at hr1
    subst hr1
    subst h2
    simp [hlen, getD_set_self hlen, setEdgeEtype]
  · simp only [add_vertex_update, if_neg (not_le.mpr hsz), Option.map_eq_some'] at h
    obtain ⟨r1, hr1, h2⟩ := h
    simp only [buildVertexBase, hmode, if_true, hfresh, Option.some_inj] at hr1
    subst hr1
    subst h2
    simp [hlen, getD_set_self hlen, cCharP, zeroVertex]
  · simp only [add_vertex_update, if_neg (not_le.mpr hsz), Option.map_eq_some'] at h
    obtain ⟨r1, hr1, h2⟩ := h
    simp only [buildVertexBase, hmode, Bool.false_eq_true, if_false, cInt64,
      Option.map_some', hfresh, Option.some_inj] at hr1
    subst hr1
    subst h2
    simp [hlen, getD_set_self hlen, zeroVertex]

theorem initStream_insertions_length (sock : Int) (a b : Bool) :
    (initStream sock a b).insertions.length = 5000 :=
  List.length_replicate 5000 zeroEdge

/-- Witness for the amended C5: on a fresh stream in string mode, the first
appended record carries the strings and zeroed integer ids; on a fresh
stream in int mode, the ids are stored and the string fields nulled. -/
theorem record_sentinel_fresh_slot_witness :
    ((add_insert (initStream 0 true false) (PyVal.str "a") (PyVal.str "b") (PyVal.int 3)
        0 0 none).map
      (fun s => ((s.insertions.getD 0 zeroEdge).source_str,
                 (s.insertions.getD 0 zeroEdge).source)) = some (CStr.lit "a", 0)) ∧
    ((add_insert (initStream 0 false false) (PyVal.int 7) (PyVal.int 8) (PyVal.int 3)
        0 0 none).map
      (fun s => ((s.insertions.getD 0 zeroEdge).source,
                 (s.insertions.getD 0 zeroEdge).source_str)) = some (7, CStr.null)) := by
  constructor
  · cases h : add_insert (initStream 0 true false) (PyVal.str "a") (PyVal.str "b")
        (PyVal.int 3) 0 0 none with
    | none => exact absurd h (by decide)
    | some s =>
      obtain ⟨h1, h2, -, -, -, -⟩ :=
        (record_sentinel_fresh_slot (initStream 0 true false) "a" "b" "ty" "v"
          7 8 3 0 0 0 0 s s s s s).1 rfl (by decide)
          (by simp only [initStream_insertions_length]; decide) (by decide) h
      simp only [Option.map_some']
      rw [show (s.insertions.getD 0 zeroEdge).source_str = CStr.lit "a" from h1,
          show (s.insertions.getD 0 zeroEdge).source = 0 from h2]
  · cases h : add_insert (initStream 0 false false) (PyVal.int 7) (PyVal.int 8)
        (PyVal.int 3) 0 0 none with
    | none => exact absurd h (by decide)
    | some s =>
      obtain ⟨h1, -, h3, -⟩ :=
        (record_sentinel_fresh_slot (initStream 0 false false) "a" "b" "ty" "v"
          7 8 3 0 0 0 0 s s s s s).2.2.1 rfl (by decide)
          (by simp only [initStream_insertions_length]; decide) h
      simp only [Option.map_some']
      rw [show (s.insertions.getD 0 zeroEdge).source_str = CStr.null from h1,
          show (s.insertions.getD 0 zeroEdge).source = toI64 7 from h3]
      decide

/-- Counterexample to claim C8 as stated: the wrapper's entire observable
outcome of `send_batch` on an empty batch is identical under a transport
failure status (-1) and a success status (0): nothing distinguishes "could
not communicate" from "sent a batch with zero records". -/
theorem send_status_counterexample :
    send_batch (initStream 0 true false) (-1) = send_batch (initStream 0 true false) 0 ∧
    (sendRequest (initStream 0 true false)).num_insertions = 0 ∧
    (sendRequest (initStream 0 true false)).num_deletions = 0 ∧
    (sendRequest (initStream 0 true false)).num_vertex_updates = 0 :=
  ⟨rfl, rfl, rfl, rfl⟩

/-- Claim C8 (amended): `send_batch` hands the batch to the native
`stream_send_batch` and discards that call's status entirely: its result and
the state it leaves (all three counts zero, all three reference lists
cleared) are independent of the transport outcome, so a transport-level
failure is not surfaced to the caller, and is indistinguishable from a
successful send of an empty batch. -/
theorem send_batch_ignores_status (st : StreamState) (s₁ s₂ : Int) :
    send_batch st s₁ = send_batch st s₂ ∧
    (send_batch st s₁).insertions_count = 0 ∧
    (send_batch st s₁).deletions_count = 0 ∧
    (send_batch st s₁).vertex_updates_count = 0 ∧
    (send_batch st s₁).insertions_refs = [] ∧
    (send_batch st s₁).deletions_refs = [] ∧
    (send_batch st s₁).vertex_updates_refs = [] :=
  ⟨rfl, rfl, rfl, rfl, rfl, rfl, rfl⟩

end StingerNet
